import Mathlib

/-!
Verification of the embedding-similarity core of the jolym backend.

This file embeds, as Lean definitions, the pure/statefully-explicit content of:
* `utils/embedding_utils.py` — `cosine_similarity`, `find_similar_roadmap`,
  `generate_embedding` (the vector similarity engine, the semantic match
  search, and the embedding provider);
* `utils/redis_cache.py` (in-memory branch) — `get_from_cache`,
  `save_to_cache`, `clear_cache_with_prefix`, `cache_key`;
* `routes/roadmap.py` — the generation-gate control flow of
  `create_roadmap_from_query`.

Python floats are modelled as real numbers; `x ** 0.5`, applied in the code
only to sums of squares (which are nonnegative), is modelled as `Real.sqrt`.
Python's wall clock (`time.time()`) is modelled as an explicit `now : ℝ`
parameter, and dictionaries as association lists with in-place update.
-/

open scoped Classical

noncomputable section

namespace Jolym

/-- The dot product of `cosine_similarity`:
`sum(a * b for a, b in zip(embedding1, embedding2))`.  `zip` silently
truncates to the shorter of the two lists. -/
def dotProduct (a b : List ℝ) : ℝ :=
  ((a.zip b).map (fun p => p.1 * p.2)).sum

/-- A magnitude in `cosine_similarity`: `sum(x * x for x in v) ** 0.5`,
taken over the whole vector. -/
def magnitude (v : List ℝ) : ℝ :=
  Real.sqrt ((v.map (fun x => x * x)).sum)

/-- Embeds `cosine_similarity(embedding1, embedding2)` from
`utils/embedding_utils.py` (lines 100–128): returns `0.0` if either list is
empty, returns `0.0` if either magnitude is zero, and otherwise divides the
dot product by the product of the two magnitudes. -/
def cosineSimilarity (embedding1 embedding2 : List ℝ) : ℝ :=
  if embedding1 = [] ∨ embedding2 = [] then 0
  else if magnitude embedding1 = 0 ∨ magnitude embedding2 = 0 then 0
  else dotProduct embedding1 embedding2 / (magnitude embedding1 * magnitude embedding2)

@[simp] theorem dotProduct_nil_left (b : List ℝ) : dotProduct [] b = 0 := by
  simp [dotProduct]

@[simp] theorem dotProduct_nil_right (a : List ℝ) : dotProduct a [] = 0 := by
  simp [dotProduct]

@[simp] theorem dotProduct_cons (x y : ℝ) (a b : List ℝ) :
    dotProduct (x :: a) (y :: b) = x * y + dotProduct a b := by
  simp [dotProduct]

theorem dotProduct_comm (a b : List ℝ) : dotProduct a b = dotProduct b a := by
  induction a generalizing b with
  | nil => cases b <;> simp
  | cons x a ih =>
    cases b with
    | nil => simp
    | cons y b => simp [ih, mul_comm]

theorem magnitude_nonneg (v : List ℝ) : 0 ≤ magnitude v :=
  Real.sqrt_nonneg _

/-- The list sum of squares as a `Finset.range` sum over indices. -/
theorem sum_sq_eq (v : List ℝ) :
    (v.map (fun x => x * x)).sum =
      ∑ i in Finset.range v.length, v.getD i 0 * v.getD i 0 := by
  induction v with
  | nil => simp
  | cons x v ih =>
    rw [List.map_cons, List.sum_cons, ih, List.length_cons,
      Finset.sum_range_succ']
    simp [add_comm]

theorem magnitude_eq (v : List ℝ) :
    magnitude v = Real.sqrt (∑ i in Finset.range v.length, v.getD i 0 * v.getD i 0) := by
  rw [magnitude, sum_sq_eq]

/-- The zip-truncated dot product as a `Finset.range` sum over the common
prefix of indices. -/
theorem dotProduct_eq_sum (a b : List ℝ) :
    dotProduct a b =
      ∑ i in Finset.range (min a.length b.length), a.getD i 0 * b.getD i 0 := by
  induction a generalizing b with
  | nil => simp
  | cons x a ih =>
    cases b with
    | nil => simp
    | cons y b =>
      rw [dotProduct_cons, ih, List.length_cons, List.length_cons,
        Nat.succ_min_succ, Finset.sum_range_succ']
      simp [add_comm]

/-- Cauchy–Schwarz for the truncating dot product: the zip dot product is
bounded in absolute value by the product of the two full-length magnitudes. -/
theorem abs_dotProduct_le (a b : List ℝ) :
    |dotProduct a b| ≤ magnitude a * magnitude b := by
  set n := min a.length b.length with hn
  have hsub_a : Finset.range n ⊆ Finset.range a.length :=
    Finset.range_subset.mpr (min_le_left _ _)
  have hsub_b : Finset.range n ⊆ Finset.range b.length :=
    Finset.range_subset.mpr (min_le_right _ _)
  have hA : Real.sqrt (∑ i in Finset.range n, a.getD i 0 ^ 2) ≤ magnitude a := by
    rw [magnitude_eq]
    apply Real.sqrt_le_sqrt
    calc ∑ i in Finset.range n, a.getD i 0 ^ 2
        ≤ ∑ i in Finset.range a.length, a.getD i 0 ^ 2 :=
          Finset.sum_le_sum_of_subset_of_nonneg hsub_a (fun i _ _ => sq_nonneg _)
      _ = ∑ i in Finset.range a.length, a.getD i 0 * a.getD i 0 :=
          Finset.sum_congr rfl (fun i _ => by ring)
  have hB : Real.sqrt (∑ i in Finset.range n, b.getD i 0 ^ 2) ≤ magnitude b := by
    rw [magnitude_eq]
    apply Real.sqrt_le_sqrt
    calc ∑ i in Finset.range n, b.getD i 0 ^ 2
        ≤ ∑ i in Finset.range b.length, b.getD i 0 ^ 2 :=
          Finset.sum_le_sum_of_subset_of_nonneg hsub_b (fun i _ _ => sq_nonneg _)
      _ = ∑ i in Finset.range b.length, b.getD i 0 * b.getD i 0 :=
          Finset.sum_congr rfl (fun i _ => by ring)
  have habs : |dotProduct a b| ≤
      Real.sqrt (∑ i in Finset.range n, a.getD i 0 ^ 2) *
        Real.sqrt (∑ i in Finset.range n, b.getD i 0 ^ 2) := by
    rw [abs_le]
    constructor
    · have h := Real.sum_mul_le_sqrt_mul_sqrt (Finset.range n)
        (fun i => -(a.getD i 0)) (fun i => b.getD i 0)
      have hrw : ∑ i in Finset.range n, -(a.getD i 0) * b.getD i 0 =
          -(dotProduct a b) := by
        rw [dotProduct_eq_sum, ← Finset.sum_neg_distrib]
        exact Finset.sum_congr rfl (fun i _ => by ring)
      have hsq : ∑ i in Finset.range n, (-(a.getD i 0)) ^ 2 =
          ∑ i in Finset.range n, a.getD i 0 ^ 2 :=
        Finset.sum_congr rfl (fun i _ => by ring)
      rw [hrw, hsq] at h
      linarith
    · have h := Real.sum_mul_le_sqrt_mul_sqrt (Finset.range n)
        (fun i => a.getD i 0) (fun i => b.getD i 0)
      rw [← dotProduct_eq_sum] at h
      exact h
  exact habs.trans
    (mul_le_mul hA hB (Real.sqrt_nonneg _) (magnitude_nonneg a))

/-- Claim C2 (amended): the result of `cosine_similarity` always lies in the
closed interval `[-1, 1]` (not `[0, 1]`: vectors with negative components can
produce strictly negative cosine similarity). -/
theorem cosineSimilarity_mem_Icc (a b : List ℝ) :
    -1 ≤ cosineSimilarity a b ∧ cosineSimilarity a b ≤ 1 := by
  unfold cosineSimilarity
  by_cases h1 : a = [] ∨ b = []
  · rw [if_pos h1]; norm_num
  · rw [if_neg h1]
    by_cases h2 : magnitude a = 0 ∨ magnitude b = 0
    · rw [if_pos h2]; norm_num
    · rw [if_neg h2]
      push_neg at h2
      have ha : 0 < magnitude a := lt_of_le_of_ne (magnitude_nonneg a) (Ne.symm h2.1)
      have hb : 0 < magnitude b := lt_of_le_of_ne (magnitude_nonneg b) (Ne.symm h2.2)
      have hm : 0 < magnitude a * magnitude b := mul_pos ha hb
      have habs := abs_dotProduct_le a b
      rw [abs_le] at habs
      constructor
      · rw [le_div_iff₀ hm]; linarith
      · rw [div_le_one hm]; exact habs.2

/-- Claim C2 (counterexample to the claim as stated): on the concrete input
`a = [1]`, `b = [-1]` the code returns `-1`, which is not in `[0, 1]`. -/
theorem cosineSimilarity_counterexample :
    cosineSimilarity [(1 : ℝ)] [(-1 : ℝ)] = -1 ∧
      cosineSimilarity [(1 : ℝ)] [(-1 : ℝ)] < 0 := by
  have hm1 : magnitude [(1 : ℝ)] = 1 := by
    simp [magnitude]
  have hm2 : magnitude [(-1 : ℝ)] = 1 := by
    rw [magnitude]
    norm_num
  have : cosineSimilarity [(1 : ℝ)] [(-1 : ℝ)] = -1 := by
    unfold cosineSimilarity
    rw [if_neg (by simp), if_neg (by rw [hm1, hm2]; norm_num), hm1, hm2]
    simp [dotProduct]
  exact ⟨this, by rw [this]; norm_num⟩

/-- Claim C3: if either vector is empty or either magnitude is zero (in
particular on the all-zero sentinel), `cosine_similarity` returns exactly 0,
with no division performed. -/
theorem cosineSimilarity_degenerate (a b : List ℝ)
    (h : a = [] ∨ b = [] ∨ magnitude a = 0 ∨ magnitude b = 0) :
    cosineSimilarity a b = 0 := by
  unfold cosineSimilarity
  by_cases h1 : a = [] ∨ b = []
  · rw [if_pos h1]
  · rw [if_neg h1, if_pos (by tauto)]

/-- Claim C3 (witness): the similarity of `[1]` against the 512-dimensional
all-zero sentinel vector is `0`. -/
theorem cosineSimilarity_degenerate_witness :
    cosineSimilarity [(1 : ℝ)] (List.replicate 512 0) = 0 :=
  cosineSimilarity_degenerate [(1 : ℝ)] (List.replicate 512 0)
    (Or.inr (Or.inr (Or.inr (by
      rw [magnitude, List.map_replicate, mul_zero, List.sum_replicate,
        smul_zero, Real.sqrt_zero]))))

/-- Claim C9: `cosine_similarity` is commutative in its two arguments. -/
theorem cosineSimilarity_comm (a b : List ℝ) :
    cosineSimilarity a b = cosineSimilarity b a := by
  unfold cosineSimilarity
  by_cases h1 : a = [] ∨ b = []
  · rw [if_pos h1, if_pos (Or.symm h1)]
  · rw [if_neg h1, if_neg (fun h => h1 (Or.symm h))]
    by_cases h2 : magnitude a = 0 ∨ magnitude b = 0
    · rw [if_pos h2, if_pos (Or.symm h2)]
    · rw [if_neg h2, if_neg (fun h => h2 (Or.symm h)), dotProduct_comm,
        mul_comm (magnitude a)]

/-- Claim C10: on non-empty vectors of different lengths `cosine_similarity`
raises no error; it computes the dot product over the common prefix of
indices only, while each magnitude ranges over that vector's full length,
and returns the resulting quotient (here stated for nonzero magnitudes,
where the division actually happens). -/
theorem cosineSimilarity_mismatched (a b : List ℝ) (ha : a ≠ []) (hb : b ≠ [])
    (hlen : a.length ≠ b.length)
    (h1 : magnitude a ≠ 0) (h2 : magnitude b ≠ 0) :
    cosineSimilarity a b =
      (∑ i in Finset.range (min a.length b.length), a.getD i 0 * b.getD i 0) /
        (Real.sqrt (∑ i in Finset.range a.length, a.getD i 0 * a.getD i 0) *
          Real.sqrt (∑ i in Finset.range b.length, b.getD i 0 * b.getD i 0)) := by
  unfold cosineSimilarity
  rw [if_neg (by tauto), if_neg (by tauto), dotProduct_eq_sum,
    magnitude_eq a, magnitude_eq b]

/-- Claim C10 (witness): applying the mismatched-length description to the
concrete vectors `[2, 0]` (length 2) and `[3]` (length 1). -/
theorem cosineSimilarity_mismatched_witness :
    cosineSimilarity [(2 : ℝ), 0] [(3 : ℝ)] =
      (∑ i in Finset.range (min ([(2 : ℝ), 0].length) ([(3 : ℝ)].length)),
          [(2 : ℝ), 0].getD i 0 * [(3 : ℝ)].getD i 0) /
        (Real.sqrt (∑ i in Finset.range [(2 : ℝ), 0].length,
            [(2 : ℝ), 0].getD i 0 * [(2 : ℝ), 0].getD i 0) *
          Real.sqrt (∑ i in Finset.range [(3 : ℝ)].length,
            [(3 : ℝ)].getD i 0 * [(3 : ℝ)].getD i 0)) :=
  cosineSimilarity_mismatched [(2 : ℝ), 0] [(3 : ℝ)] (by simp) (by simp) (by simp)
    (by rw [magnitude]; rw [Real.sqrt_ne_zero']; norm_num)
    (by rw [magnitude]; rw [Real.sqrt_ne_zero']; norm_num)

/-- A stored roadmap row as seen by `find_similar_roadmap`: its primary key,
its name, and its embedding column.  A `None`/empty embedding (falsy in
Python) is modelled as the empty list. -/
structure RoadmapRec where
  id : ℕ
  name : String
  embedding : List ℝ

/-- One iteration of the scan loop in `find_similar_roadmap` (lines 163–168):
rows with a falsy embedding are skipped; otherwise the running
`(best_similarity, best_roadmap_id)` pair is updated exactly when the row's
similarity is strictly greater than the current best. -/
def simStep (q : List ℝ) (st : ℝ × Option ℕ) (r : RoadmapRec) : ℝ × Option ℕ :=
  if r.embedding = [] then st
  else if st.1 < cosineSimilarity q r.embedding then
    (cosineSimilarity q r.embedding, some r.id)
  else st

/-- The scan of `find_similar_roadmap` (lines 159–176), applied to the query
embedding and the list of stored roadmaps in scan order: fold the loop body
over the rows starting from `(0.0, None)`, then return the best id if the
best similarity reached the threshold, else `None`. -/
def findSimilarRoadmap (q : List ℝ) (roadmaps : List RoadmapRec) (threshold : ℝ) :
    Option ℕ :=
  let best := roadmaps.foldl (simStep q) (0, none)
  if threshold ≤ best.1 then best.2 else none

/-- Specification-side view of the scan: the `(id, similarity)` pairs of the
candidates that are actually compared (those with a non-empty embedding), in
scan order. -/
def simsOf (q : List ℝ) : List RoadmapRec → List (ℕ × ℝ)
  | [] => []
  | r :: rs =>
    if r.embedding = [] then simsOf q rs
    else (r.id, cosineSimilarity q r.embedding) :: simsOf q rs

/-- Specification-side view: the maximum candidate similarity, starting from
the loop's initial best of `0.0`. -/
def maxSim (q : List ℝ) (rs : List RoadmapRec) : ℝ :=
  ((simsOf q rs).map Prod.snd).foldl max 0

/-- Specification-side view: the id of the first-seen pair whose similarity
equals `m`. -/
def firstWith (m : ℝ) : List (ℕ × ℝ) → Option ℕ
  | [] => none
  | p :: l => if p.2 = m then some p.1 else firstWith m l

theorem le_foldl_max (l : List ℝ) (b : ℝ) : b ≤ l.foldl max b := by
  induction l generalizing b with
  | nil => exact le_rfl
  | cons x l ih => exact le_trans (le_max_left b x) (ih (max b x))

theorem mem_le_foldl_max {x : ℝ} (l : List ℝ) (b : ℝ) (h : x ∈ l) :
    x ≤ l.foldl max b := by
  induction l generalizing b with
  | nil => cases h
  | cons y l ih =>
    rcases List.mem_cons.mp h with rfl | hm
    · exact le_trans (le_max_right b x) (le_foldl_max l (max b x))
    · exact ih (max b y) hm

theorem foldl_max_of_le {l : List ℝ} {b : ℝ} (h : ∀ x ∈ l, x ≤ b) :
    l.foldl max b = b := by
  induction l with
  | nil => rfl
  | cons x l ih =>
    rw [List.foldl_cons, max_eq_left (h x (List.mem_cons_self x l))]
    exact ih (fun y hy => h y (List.mem_cons_of_mem x hy))

theorem foldl_max_eq_or_mem (l : List ℝ) (b : ℝ) :
    l.foldl max b = b ∨ l.foldl max b ∈ l := by
  induction l generalizing b with
  | nil => exact Or.inl rfl
  | cons x l ih =>
    rw [List.foldl_cons]
    rcases ih (max b x) with h | h
    · rcases max_choice b x with hm | hm
      · exact Or.inl (h.trans hm)
      · exact Or.inr (by rw [h, hm]; exact List.mem_cons_self x l)
    · exact Or.inr (List.mem_cons_of_mem x h)

theorem foldl_simStep_fst (q : List ℝ) :
    ∀ (rs : List RoadmapRec) (b : ℝ) (o : Option ℕ),
      (rs.foldl (simStep q) (b, o)).1 = ((simsOf q rs).map Prod.snd).foldl max b := by
  intro rs
  induction rs with
  | nil => intro b o; rfl
  | cons r rs ih =>
    intro b o
    by_cases hr : r.embedding = []
    · rw [List.foldl_cons, simStep, if_pos hr, simsOf, if_pos hr]
      exact ih b o
    · rw [List.foldl_cons, simStep, if_neg hr, simsOf, if_neg hr,
        List.map_cons, List.foldl_cons]
      by_cases hlt : b < cosineSimilarity q r.embedding
      · rw [if_pos hlt, ih, max_eq_right hlt.le]
      · rw [if_neg hlt, ih, max_eq_left (not_lt.mp hlt)]

theorem foldl_simStep_snd (q : List ℝ) :
    ∀ (rs : List RoadmapRec) (b : ℝ) (o : Option ℕ),
      (rs.foldl (simStep q) (b, o)).2 =
        if ∃ p ∈ simsOf q rs, b < p.2 then
          firstWith (((simsOf q rs).map Prod.snd).foldl max b) (simsOf q rs)
        else o := by
  intro rs
  induction rs with
  | nil =>
    intro b o
    simp [simsOf]
  | cons r rs ih =>
    intro b o
    by_cases hr : r.embedding = []
    · rw [List.foldl_cons, simStep, if_pos hr, simsOf, if_pos hr]
      exact ih b o
    · rw [List.foldl_cons, simStep, if_neg hr, simsOf, if_neg hr]
      set s := cosineSimilarity q r.embedding with hs
      by_cases hlt : b < s
      · rw [if_pos hlt, ih]
        have hcond : ∃ p ∈ (r.id, s) :: simsOf q rs, b < p.2 :=
          ⟨(r.id, s), List.mem_cons_self _ _, hlt⟩
        rw [if_pos hcond, List.map_cons, List.foldl_cons,
          max_eq_right hlt.le]
        by_cases h2 : ∃ p ∈ simsOf q rs, s < p.2
        · rw [if_pos h2]
          obtain ⟨p, hp, hps⟩ := h2
          have hM : p.2 ≤ ((simsOf q rs).map Prod.snd).foldl max s :=
            mem_le_foldl_max _ s (List.mem_map_of_mem Prod.snd hp)
          have hne : s ≠ ((simsOf q rs).map Prod.snd).foldl max s :=
            ne_of_lt (lt_of_lt_of_le hps hM)
          rw [firstWith, if_neg hne]
        · rw [if_neg h2]
          push_neg at h2
          have hM : ((simsOf q rs).map Prod.snd).foldl max s = s := by
            apply foldl_max_of_le
            intro x hx
            obtain ⟨p, hp, hpx⟩ := List.mem_map.mp hx
            exact hpx ▸ h2 p hp
          rw [hM, firstWith, if_pos rfl]
      · rw [if_neg hlt, ih]
        have hsle : s ≤ b := not_lt.mp hlt
        have hcond : (∃ p ∈ (r.id, s) :: simsOf q rs, b < p.2) ↔
            (∃ p ∈ simsOf q rs, b < p.2) := by
          constructor
          · rintro ⟨p, hp, hbp⟩
            rcases List.mem_cons.mp hp with rfl | hm
            · exact absurd hbp (by simpa using hlt)
            · exact ⟨p, hm, hbp⟩
          · rintro ⟨p, hp, hbp⟩
            exact ⟨p, List.mem_cons_of_mem _ hp, hbp⟩
        by_cases h2 : ∃ p ∈ simsOf q rs, b < p.2
        · rw [if_pos h2, if_pos (hcond.mpr h2), List.map_cons, List.foldl_cons,
            max_eq_left hsle]
          obtain ⟨p, hp, hbp⟩ := h2
          have hM : p.2 ≤ ((simsOf q rs).map Prod.snd).foldl max b :=
            mem_le_foldl_max _ b (List.mem_map_of_mem Prod.snd hp)
          have hne : s ≠ ((simsOf q rs).map Prod.snd).foldl max b :=
            ne_of_lt (lt_of_le_of_lt hsle (lt_of_lt_of_le hbp hM))
          rw [firstWith, if_neg hne]
        · rw [if_neg h2, if_neg (fun hc => h2 (hcond.mp hc))]

theorem mem_simsOf_le_maxSim {q : List ℝ} {rs : List RoadmapRec} {p : ℕ × ℝ}
    (hp : p ∈ simsOf q rs) : p.2 ≤ maxSim q rs :=
  mem_le_foldl_max _ 0 (List.mem_map_of_mem Prod.snd hp)

theorem maxSim_attained {q : List ℝ} {rs : List RoadmapRec}
    (h : 0 < maxSim q rs) : ∃ p ∈ simsOf q rs, p.2 = maxSim q rs := by
  rcases foldl_max_eq_or_mem ((simsOf q rs).map Prod.snd) 0 with he | hm
  · exact absurd ((show maxSim q rs = 0 from he) ▸ h) (lt_irrefl 0)
  · obtain ⟨p, hp, hpm⟩ := List.mem_map.mp hm
    exact ⟨p, hp, hpm⟩

theorem firstWith_some {m : ℝ} {l : List (ℕ × ℝ)} {i : ℕ}
    (h : firstWith m l = some i) :
    ∃ l1 p l2, l = l1 ++ p :: l2 ∧ p.1 = i ∧ p.2 = m ∧ ∀ p' ∈ l1, p'.2 ≠ m := by
  induction l with
  | nil => exact absurd h (by simp [firstWith])
  | cons p l ih =>
    rw [firstWith] at h
    by_cases hp : p.2 = m
    · rw [if_pos hp] at h
      exact ⟨[], p, l, by simp, Option.some.inj h, hp, by simp⟩
    · rw [if_neg hp] at h
      obtain ⟨l1, p', l2, hl, h1, h2, h3⟩ := ih h
      refine ⟨p :: l1, p', l2, by rw [hl]; rfl, h1, h2, ?_⟩
      intro p'' hp''
      rcases List.mem_cons.mp hp'' with rfl | hmem
      · exact hp
      · exact h3 p'' hmem

theorem firstWith_attained {m : ℝ} {l : List (ℕ × ℝ)}
    (h : ∃ p ∈ l, p.2 = m) :
    ∃ i, firstWith m l = some i ∧ ∃ p ∈ l, p.1 = i ∧ p.2 = m := by
  induction l with
  | nil => obtain ⟨p, hp, _⟩ := h; cases hp
  | cons p l ih =>
    by_cases hp : p.2 = m
    · exact ⟨p.1, by rw [firstWith, if_pos hp], p, List.mem_cons_self _ _, rfl, hp⟩
    · have h' : ∃ p' ∈ l, p'.2 = m := by
        obtain ⟨p', hp', hm⟩ := h
        rcases List.mem_cons.mp hp' with rfl | hmem
        · exact absurd hm hp
        · exact ⟨p', hmem, hm⟩
      obtain ⟨i, hfw, p', hp', h1, h2⟩ := ih h'
      exact ⟨i, by rw [firstWith, if_neg hp]; exact hfw,
        p', List.mem_cons_of_mem _ hp', h1, h2⟩

/-- Full characterisation of the scan: the search returns the first-seen id
attaining the maximum similarity exactly when the maximum reaches the
threshold and is strictly positive, and `none` otherwise. -/
theorem findSimilarRoadmap_eq (q : List ℝ) (rs : List RoadmapRec) (t : ℝ) :
    findSimilarRoadmap q rs t =
      if t ≤ maxSim q rs ∧ 0 < maxSim q rs then
        firstWith (maxSim q rs) (simsOf q rs)
      else none := by
  have h1 : (rs.foldl (simStep q) ((0 : ℝ), (none : Option ℕ))).1 = maxSim q rs :=
    foldl_simStep_fst q rs 0 none
  have h2 : (rs.foldl (simStep q) ((0 : ℝ), (none : Option ℕ))).2 =
      if ∃ p ∈ simsOf q rs, (0 : ℝ) < p.2 then
        firstWith (maxSim q rs) (simsOf q rs)
      else none :=
    foldl_simStep_snd q rs 0 none
  have hiff : (∃ p ∈ simsOf q rs, (0 : ℝ) < p.2) ↔ 0 < maxSim q rs := by
    constructor
    · rintro ⟨p, hp, h0⟩
      exact lt_of_lt_of_le h0 (mem_simsOf_le_maxSim hp)
    · intro h0
      by_contra hne
      push_neg at hne
      have hz : maxSim q rs = 0 := foldl_max_of_le (fun x hx => by
        obtain ⟨p, hp, hpx⟩ := List.mem_map.mp hx
        exact hpx ▸ hne p hp)
      rw [hz] at h0
      exact lt_irrefl 0 h0
  simp only [findSimilarRoadmap]
  rw [h1, h2]
  by_cases ht : t ≤ maxSim q rs
  · by_cases h0 : 0 < maxSim q rs
    · rw [if_pos ht, if_pos (hiff.mpr h0), if_pos ⟨ht, h0⟩]
    · rw [if_pos ht, if_neg (fun hc => h0 (hiff.mp hc)), if_neg (fun hc => h0 hc.2)]
  · rw [if_neg ht, if_neg (fun hc => ht hc.1)]

/-- Claim C1 (counterexample to the claim as stated): with threshold `0` and
the single candidate `(id 1, embedding [0])`, the maximum similarity is `0`,
which is `≥` the threshold and attained by candidate 1, yet
`find_similar_roadmap` returns `None` rather than that candidate's id
(the running best id is only set on a strict `>` against the initial `0.0`). -/
theorem findSimilarRoadmap_counterexample :
    maxSim [(1 : ℝ)] [RoadmapRec.mk 1 "python" [0]] = 0 ∧
      simsOf [(1 : ℝ)] [RoadmapRec.mk 1 "python" [0]] = [(1, 0)] ∧
      (0 : ℝ) ≤ maxSim [(1 : ℝ)] [RoadmapRec.mk 1 "python" [0]] ∧
      findSimilarRoadmap [(1 : ℝ)] [RoadmapRec.mk 1 "python" [0]] 0 = none := by
  have hsim : cosineSimilarity [(1 : ℝ)] [(0 : ℝ)] = 0 := by
    unfold cosineSimilarity
    have hm : magnitude [(0 : ℝ)] = 0 := by simp [magnitude]
    rw [if_neg (by simp), if_pos (Or.inr hm)]
  have hsims : simsOf [(1 : ℝ)] [RoadmapRec.mk 1 "python" [0]] = [(1, 0)] := by
    simp [simsOf, hsim]
  have hmax : maxSim [(1 : ℝ)] [RoadmapRec.mk 1 "python" [0]] = 0 := by
    rw [maxSim, hsims]
    simp
  refine ⟨hmax, hsims, le_of_eq hmax.symm, ?_⟩
  rw [findSimilarRoadmap_eq, hmax]
  rw [if_neg (fun hc => lt_irrefl 0 hc.2)]

/-- Claim C1 (amended): for every strictly positive threshold, the search
returns `None` on an empty candidate set, returns `None` when every scanned
candidate's similarity is strictly below the threshold (and more generally
whenever the maximum similarity is below the threshold), and returns the id
of a candidate attaining the maximum similarity whenever that maximum
reaches the threshold. -/
theorem findSimilarRoadmap_spec (q : List ℝ) (rs : List RoadmapRec) (t : ℝ)
    (ht : 0 < t) :
    (rs = [] → findSimilarRoadmap q rs t = none) ∧
    ((∀ p ∈ simsOf q rs, p.2 < t) → findSimilarRoadmap q rs t = none) ∧
    (maxSim q rs < t → findSimilarRoadmap q rs t = none) ∧
    (t ≤ maxSim q rs →
      ∃ i, findSimilarRoadmap q rs t = some i ∧
        ∃ p ∈ simsOf q rs, p.1 = i ∧ p.2 = maxSim q rs) := by
  have hlow : maxSim q rs < t → findSimilarRoadmap q rs t = none := by
    intro hm
    rw [findSimilarRoadmap_eq, if_neg (fun hc => absurd (lt_of_le_of_lt hc.1 hm) (lt_irrefl t))]
  refine ⟨?_, ?_, hlow, ?_⟩
  · intro h
    subst h
    exact hlow (by rw [show maxSim q [] = 0 from rfl]; exact ht)
  · intro hall
    apply hlow
    rcases foldl_max_eq_or_mem ((simsOf q rs).map Prod.snd) 0 with he | hm
    · rw [show maxSim q rs = 0 from he]
      exact ht
    · obtain ⟨p, hp, hpm⟩ := List.mem_map.mp hm
      rw [show maxSim q rs = p.2 from hpm.symm]
      exact hall p hp
  · intro hle
    have h0 : 0 < maxSim q rs := lt_of_lt_of_le ht hle
    rw [findSimilarRoadmap_eq, if_pos ⟨hle, h0⟩]
    obtain ⟨i, hfw, p, hp, h1, h2⟩ := firstWith_attained (maxSim_attained h0)
    exact ⟨i, hfw, p, hp, h1, h2⟩

/-- Claim C1 (witness): the amended statement applied at the concrete input
with query embedding `[1]`, one candidate `(id 5, embedding [1])`, and
threshold `1/2`. -/
theorem findSimilarRoadmap_spec_witness :
    (0 : ℝ) < 1 / 2 ∧
      (([RoadmapRec.mk 5 "sql" [1]] : List RoadmapRec) = [] →
        findSimilarRoadmap [(1 : ℝ)] [RoadmapRec.mk 5 "sql" [1]] (1 / 2) = none) ∧
      ((∀ p ∈ simsOf [(1 : ℝ)] [RoadmapRec.mk 5 "sql" [1]], p.2 < 1 / 2) →
        findSimilarRoadmap [(1 : ℝ)] [RoadmapRec.mk 5 "sql" [1]] (1 / 2) = none) ∧
      (maxSim [(1 : ℝ)] [RoadmapRec.mk 5 "sql" [1]] < 1 / 2 →
        findSimilarRoadmap [(1 : ℝ)] [RoadmapRec.mk 5 "sql" [1]] (1 / 2) = none) ∧
      (1 / 2 ≤ maxSim [(1 : ℝ)] [RoadmapRec.mk 5 "sql" [1]] →
        ∃ i, findSimilarRoadmap [(1 : ℝ)] [RoadmapRec.mk 5 "sql" [1]] (1 / 2) = some i ∧
          ∃ p ∈ simsOf [(1 : ℝ)] [RoadmapRec.mk 5 "sql" [1]],
            p.1 = i ∧ p.2 = maxSim [(1 : ℝ)] [RoadmapRec.mk 5 "sql" [1]]) :=
  ⟨by norm_num,
    findSimilarRoadmap_spec [(1 : ℝ)] [RoadmapRec.mk 5 "sql" [1]] (1 / 2) (by norm_num)⟩

/-- Claim C4: whenever the search returns an id, the scanned candidate
sequence decomposes as `l1 ++ p :: l2` where `p` carries the returned id,
`p`'s similarity equals the maximum, and every candidate scanned before `p`
has similarity strictly below the maximum — so on ties for the maximum the
first-seen candidate's id wins (strict `>` tracking). -/
theorem findSimilarRoadmap_first_seen (q : List ℝ) (rs : List RoadmapRec)
    (t : ℝ) (i : ℕ) (h : findSimilarRoadmap q rs t = some i) :
    ∃ l1 p l2, simsOf q rs = l1 ++ p :: l2 ∧ p.1 = i ∧ p.2 = maxSim q rs ∧
      ∀ p' ∈ l1, p'.2 < maxSim q rs := by
  rw [findSimilarRoadmap_eq] at h
  by_cases hc : t ≤ maxSim q rs ∧ 0 < maxSim q rs
  · rw [if_pos hc] at h
    obtain ⟨l1, p, l2, hl, h1, h2, h3⟩ := firstWith_some h
    refine ⟨l1, p, l2, hl, h1, h2, fun p' hp' => ?_⟩
    have hle : p'.2 ≤ maxSim q rs :=
      mem_simsOf_le_maxSim (by rw [hl]; exact List.mem_append_left _ hp')
    exact lt_of_le_of_ne hle (h3 p' hp')
  · rw [if_neg hc] at h
    cases h

theorem cosineSimilarity_one_two : cosineSimilarity [(1 : ℝ)] [(2 : ℝ)] = 1 := by
  have hm1 : magnitude [(1 : ℝ)] = 1 := by simp [magnitude]
  have hm2 : magnitude [(2 : ℝ)] = 2 := by
    rw [magnitude]
    rw [show ([(2 : ℝ)].map (fun x => x * x)).sum = 2 ^ 2 by norm_num]
    exact Real.sqrt_sq (by norm_num)
  unfold cosineSimilarity
  rw [if_neg (by simp), if_neg (by rw [hm1, hm2]; norm_num), hm1, hm2]
  norm_num [dotProduct]

theorem findSimilarRoadmap_tie_run :
    findSimilarRoadmap [(1 : ℝ)]
      [RoadmapRec.mk 3 "go" [2], RoadmapRec.mk 4 "rust" [2]] (1 / 2) = some 3 := by
  have hs := cosineSimilarity_one_two
  simp only [findSimilarRoadmap, List.foldl_cons, List.foldl_nil, simStep, hs]
  norm_num

/-- Claim C4 (witness): on the concrete tie — query `[1]`, candidates
`(3, [2])` and `(4, [2])` both with similarity `1` — the search returns the
first-seen id `3`, and the decomposition of the scanned sequence confirms it
attains the maximum with nothing strictly-greater before it. -/
theorem findSimilarRoadmap_first_seen_witness :
    ∃ l1 p l2,
      simsOf [(1 : ℝ)] [RoadmapRec.mk 3 "go" [2], RoadmapRec.mk 4 "rust" [2]] =
        l1 ++ p :: l2 ∧
      p.1 = 3 ∧
      p.2 = maxSim [(1 : ℝ)] [RoadmapRec.mk 3 "go" [2], RoadmapRec.mk 4 "rust" [2]] ∧
      ∀ p' ∈ l1,
        p'.2 < maxSim [(1 : ℝ)] [RoadmapRec.mk 3 "go" [2], RoadmapRec.mk 4 "rust" [2]] :=
  findSimilarRoadmap_first_seen [(1 : ℝ)]
    [RoadmapRec.mk 3 "go" [2], RoadmapRec.mk 4 "rust" [2]] (1 / 2) 3
    findSimilarRoadmap_tie_run

/-- Outcome of the underlying CLIP API call performed inside
`ClipEmbedder.get_text_embedding` (lines 54–61): either the
`text_features` vector extracted from the response, or any raised exception
(unreachable endpoint, HTTP error status, malformed response shape). -/
inductive ApiResult where
  | ok (v : List ℝ)
  | error

/-- Embeds `ClipEmbedder.get_text_embedding`: returns the response vector, and on
any exception logs and returns `[0.0] * 512`. -/
def getTextEmbedding : ApiResult → List ℝ
  | ApiResult.ok v => v
  | ApiResult.error => List.replicate 512 0

/-- Embeds `generate_embedding(text)` (lines 72–98): when `EMBEDDINGS_SUPPORTED` is
false or the embedder failed to initialise (unconfigured environment), the
512-dimensional all-zero sentinel is returned immediately; otherwise the
embedder is consulted, whose own error handling already yields that sentinel
on failure (and the outer `except` would as well). -/
def generateEmbedding (supported : Bool) (api : ApiResult) : List ℝ :=
  if supported then getTextEmbedding api else List.replicate 512 0

/-- Claim C5: `generate_embedding` never propagates a failure — on an
unconfigured, unreachable, or erroring embedding source it returns the
all-zero sentinel vector of the provider's fixed dimensionality 512. -/
theorem generateEmbedding_fail_open (supported : Bool) (api : ApiResult)
    (h : supported = false ∨ api = ApiResult.error) :
    generateEmbedding supported api = List.replicate 512 0 ∧
      (generateEmbedding supported api).length = 512 := by
  have hz : generateEmbedding supported api = List.replicate 512 0 := by
    rcases h with h | h
    · rw [h, generateEmbedding, if_neg (by simp)]
    · rw [h, generateEmbedding, getTextEmbedding]
      by_cases hs : supported = true
      · rw [if_pos hs]
      · rw [if_neg hs]
  exact ⟨hz, by rw [hz, List.length_replicate]⟩

/-- Claim C5 (witness): with the embedding subsystem unconfigured
(`EMBEDDINGS_SUPPORTED` false), the provider returns the 512-dimensional
zero sentinel even though the API would have answered `[1]`. -/
theorem generateEmbedding_fail_open_witness :
    generateEmbedding false (ApiResult.ok [1]) = List.replicate 512 0 ∧
      (generateEmbedding false (ApiResult.ok [1])).length = 512 :=
  generateEmbedding_fail_open false (ApiResult.ok [1]) (Or.inl rfl)

/-- In-memory cache state of `redis_cache.py` when Redis is disabled: the
`memory_cache` dictionary and the parallel `cache_expiry` timestamp
dictionary, modelled as insertion-ordered association lists (Python dicts),
with `time.time()` an explicit real-valued parameter. -/
structure CacheState (V : Type) where
  mem : List (String × V)
  exp : List (String × ℝ)

/-- Python dict assignment `d[k] = v`: replace the value in place when the
key is present, else append at the end (insertion order preserved). -/
def setA {V : Type} : List (String × V) → String → V → List (String × V)
  | [], k, v => [(k, v)]
  | kv :: rest, k, v =>
    if kv.1 = k then (k, v) :: rest else kv :: setA rest k v

/-- Python dict lookup `d[k]` / membership `k in d`. -/
def lookupA {V : Type} : List (String × V) → String → Option V
  | [], _ => none
  | kv :: rest, k => if kv.1 = k then some kv.2 else lookupA rest k

/-- Python dict deletion `del d[k]`: dict keys are unique, so deleting a key
removes exactly the entries carrying it. -/
def delA {V : Type} (l : List (String × V)) (k : String) : List (String × V) :=
  l.filter (fun kv => decide (kv.1 ≠ k))

/-- Embeds `get_from_cache(key)` (lines 61–94, in-memory branch): a hit requires
the key to be present with no expiry or an expiry strictly in the future;
otherwise a present-but-expired entry is lazily deleted from both
dictionaries and the call is a miss.  Returns the optional value and the
possibly-updated state. -/
def getFromCache {V : Type} (s : CacheState V) (key : String) (now : ℝ) :
    Option V × CacheState V :=
  match lookupA s.mem key with
  | some v =>
    match lookupA s.exp key with
    | none => (some v, s)
    | some e =>
      if e > now then (some v, s)
      else (none, CacheState.mk (delA s.mem key) (delA s.exp key))
  | none => (none, s)

/-- Embeds `save_to_cache(key, data, ttl)` (lines 96–126, in-memory branch): store
the value, set the expiry to `time.time() + ttl`, and report success. -/
def saveToCache {V : Type} (s : CacheState V) (key : String) (data : V)
    (ttl : ℝ) (now : ℝ) : Bool × CacheState V :=
  (true, CacheState.mk (setA s.mem key data) (setA s.exp key (now + ttl)))

theorem lookupA_setA_self {V : Type} (l : List (String × V)) (k : String) (v : V) :
    lookupA (setA l k v) k = some v := by
  induction l with
  | nil => simp [setA, lookupA]
  | cons kv rest ih =>
    rw [setA]
    by_cases h : kv.1 = k
    · rw [if_pos h, lookupA, if_pos rfl]
    · rw [if_neg h, lookupA, if_neg h]
      exact ih

/-- Claim C7: `put(k, v, ttl)` with positive ttl followed immediately (same
clock reading) by `get(k)` returns `v`; and once the clock has advanced
strictly beyond the stored expiry `put-time + ttl`, `get(k)` returns none. -/
theorem cache_roundtrip {V : Type} (s : CacheState V) (k : String) (v : V)
    (ttl t now : ℝ) (httl : 0 < ttl) :
    (getFromCache (saveToCache s k v ttl t).2 k t).1 = some v ∧
      (t + ttl < now → (getFromCache (saveToCache s k v ttl t).2 k now).1 = none) := by
  have hmem : lookupA (setA s.mem k v) k = some v := lookupA_setA_self _ _ _
  have hexp : lookupA (setA s.exp k (t + ttl)) k = some (t + ttl) :=
    lookupA_setA_self _ _ _
  constructor
  · simp only [saveToCache, getFromCache, hmem, hexp]
    rw [if_pos (by linarith : t + ttl > t)]
  · intro hlt
    simp only [saveToCache, getFromCache, hmem, hexp]
    rw [if_neg (by linarith : ¬ t + ttl > now)]

/-- Claim C7 (witness): on the empty cache, `put("k", 42, ttl 60)` at time 0
followed by `get("k")` at time 0 yields 42, and at time 61 yields none. -/
theorem cache_roundtrip_witness :
    (getFromCache (saveToCache (CacheState.mk ([] : List (String × ℕ)) []) "k" 42 60 0).2
        "k" 0).1 = some 42 ∧
      ((0 : ℝ) + 60 < 61 →
        (getFromCache (saveToCache (CacheState.mk ([] : List (String × ℕ)) []) "k" 42 60 0).2
          "k" 61).1 = none) :=
  cache_roundtrip (CacheState.mk ([] : List (String × ℕ)) []) "k" 42 60 0 61 (by norm_num)

/-- Python's `k.startswith(p)`: the character sequence of `p` is a prefix of
the character sequence of `k`. -/
def strStartsWith (p k : String) : Bool :=
  p.data.isPrefixOf k.data

/-- Embeds `clear_cache_with_prefix(prefix)` (lines 160–200, in-memory branch):
collect the keys of `memory_cache` that start with `prefix + ":"`, delete
each collected key from both dictionaries, and return how many keys were
collected. -/
def clearCacheWithPfx {V : Type} (s : CacheState V) (pfx : String) :
    ℕ × CacheState V :=
  let full := pfx ++ ":"
  let keysToDelete := (s.mem.map Prod.fst).filter (fun k => strStartsWith full k)
  (keysToDelete.length,
    CacheState.mk (keysToDelete.foldl delA s.mem) (keysToDelete.foldl delA s.exp))

theorem foldl_delA {V : Type} :
    ∀ (ks : List String) (l : List (String × V)),
      ks.foldl delA l = l.filter (fun kv => decide (kv.1 ∉ ks)) := by
  intro ks
  induction ks with
  | nil =>
    intro l
    simp
  | cons k ks ih =>
    intro l
    rw [List.foldl_cons, ih (delA l k), delA, List.filter_filter]
    apply List.filter_congr
    intro kv _
    by_cases h1 : kv.1 = k
    · simp [h1]
    · by_cases h2 : kv.1 ∈ ks <;> simp [h1, h2]

/-- Claim C8: `clear_cache_with_prefix(p)` removes from `memory_cache`
exactly the entries whose key starts with `p ++ ":"` and returns their
count, leaving every other entry in place; in particular, after inserting
`roadmap:1`, `roadmap:2` and `other:1` into an empty cache it reports 2
removals and the surviving store is exactly the `other:1` entry. -/
theorem clearCache_spec :
    (∀ (V : Type) (s : CacheState V) (pfx : String),
      (clearCacheWithPfx s pfx).1 =
        ((s.mem.map Prod.fst).filter (fun k => strStartsWith (pfx ++ ":") k)).length ∧
      (clearCacheWithPfx s pfx).2.mem =
        s.mem.filter (fun kv => !(strStartsWith (pfx ++ ":") kv.1))) ∧
    ((clearCacheWithPfx
        (saveToCache (saveToCache (saveToCache
            (CacheState.mk ([] : List (String × ℕ)) [])
            "roadmap:1" 10 60 0).2 "roadmap:2" 20 60 0).2 "other:1" 30 60 0).2
        "roadmap").1 = 2 ∧
      (clearCacheWithPfx
        (saveToCache (saveToCache (saveToCache
            (CacheState.mk ([] : List (String × ℕ)) [])
            "roadmap:1" 10 60 0).2 "roadmap:2" 20 60 0).2 "other:1" 30 60 0).2
        "roadmap").2.mem = [("other:1", 30)]) := by
  constructor
  · intro V s pfx
    refine ⟨rfl, ?_⟩
    show ((s.mem.map Prod.fst).filter (fun k => strStartsWith (pfx ++ ":") k)).foldl
        delA s.mem = _
    rw [foldl_delA]
    apply List.filter_congr
    intro kv hkv
    by_cases hp : strStartsWith (pfx ++ ":") kv.1
    · simp only [hp, Bool.not_true]
      rw [decide_eq_false]
      simp only [not_not]
      exact List.mem_filter.mpr ⟨List.mem_map_of_mem Prod.fst hkv, hp⟩
    · simp only [hp, Bool.not_false]
      rw [decide_eq_true]
      intro hmem
      exact absurd (List.mem_filter.mp hmem).2 hp
  · constructor
    · decide
    · decide

/-- Structured content returned by the opaque generator `generate_roadmap`
(consumed by `create_roadmap_from_query`): the fields of the new roadmap
row; child steps/resources live in separate tables and are not part of the
roadmap row itself. -/
structure RoadmapData where
  name : String
  description : String

/-- The two HTTP-error outcomes of `create_roadmap_from_query`: the explicit
`"Failed to generate roadmap"` 500 raised when the generator returns no
usable structure, and the generic 500 raised by the outer exception
handler. -/
inductive GateError where
  | generationFailed
  | internalError

/-- Embeds `SIMILARITY_THRESHOLD` from `routes/roadmap.py` (line 30). -/
def similarityThreshold : ℝ := 0.85

/-- Embeds `cache_key(prefix, *args)` from `redis_cache.py` (lines 48–59):
`f"{prefix}:{':'.join(str(arg) for arg in args)}"`. -/
def cacheKey (pfx : String) (args : List String) : String :=
  pfx ++ ":" ++ String.intercalate ":" args

/-- Embeds `db.query(RoadmapInDB).filter(RoadmapInDB.id == i).first()`. -/
def findById (db : List RoadmapRec) (i : ℕ) : Option RoadmapRec :=
  db.find? (fun r => r.id == i)

/-- The generation-gate control flow of `create_roadmap_from_query`
(`routes/roadmap.py`, lines 118–229), with its external collaborators made
explicit: `supported` is `EMBEDDINGS_SUPPORTED`, `qEmb` the embedding the
provider computes for the query, `db` the stored roadmap rows in scan
order, `cache` the in-memory result-cache state, `genResult` the outcome of
the single `generate_roadmap(query)` call (`none` models a falsy/failed
result), and `newId` the primary key the database assigns on insert.
Returns the HTTP outcome, the final roadmap table, the final cache state,
and how many times the generator was invoked. -/
def createRoadmapFromQuery (supported : Bool) (qEmb : List ℝ) (query : String)
    (db : List RoadmapRec) (cache : CacheState ℕ) (now : ℝ)
    (genResult : Option RoadmapData) (newId : ℕ) :
    Except GateError RoadmapRec × List RoadmapRec × CacheState ℕ × ℕ :=
  let key := cacheKey "roadmap_query" [query]
  let hit := getFromCache cache key now
  let cache1 := hit.2
  let afterCache : Option RoadmapRec :=
    match hit.1 with
    | some rid => findById db rid
    | none => none
  match afterCache with
  | some r => (Except.ok r, db, cache1, 0)
  | none =>
    let similar := if supported then findSimilarRoadmap qEmb db similarityThreshold
                   else none
    match similar with
    | some sid =>
      match findById db sid with
      | some r => (Except.ok r, db, (saveToCache cache1 key r.id 86400 now).2, 0)
      | none => (Except.error GateError.internalError, db, cache1, 0)
    | none =>
      match genResult with
      | none => (Except.error GateError.generationFailed, db, cache1, 1)
      | some data =>
        let emb := if supported then qEmb else []
        let newRec := RoadmapRec.mk newId data.name emb
        (Except.ok newRec, db ++ [newRec],
          (saveToCache cache1 key newId 86400 now).2, 1)

/-- Claim C6: when the exact-match cache misses, the semantic search finds
no match, and the generator returns no usable structured content, the gate
surfaces an explicit generation failure, invokes the generator exactly once
(no retry), and persists no new roadmap row — the roadmap table is
unchanged. -/
theorem createRoadmap_generationFailed (supported : Bool) (qEmb : List ℝ)
    (query : String) (db : List RoadmapRec) (cache : CacheState ℕ) (now : ℝ)
    (newId : ℕ)
    (hmiss : (getFromCache cache (cacheKey "roadmap_query" [query]) now).1 = none)
    (hsim : (if supported then findSimilarRoadmap qEmb db similarityThreshold
             else none) = none) :
    (createRoadmapFromQuery supported qEmb query db cache now none newId).1 =
        Except.error GateError.generationFailed ∧
      (createRoadmapFromQuery supported qEmb query db cache now none newId).2.1 = db ∧
      (createRoadmapFromQuery supported qEmb query db cache now none newId).2.2.2 = 1 := by
  simp only [createRoadmapFromQuery, hmiss, hsim]
  exact ⟨trivial, trivial, trivial⟩

/-- Claim C6 (witness): concrete run with embeddings unsupported, an empty
store and cache, and a failing generator: the gate reports the generation
failure, calls the generator once, and leaves the (empty) roadmap table
unchanged. -/
theorem createRoadmap_generationFailed_witness :
    (createRoadmapFromQuery false [] "learn backend development" []
        (CacheState.mk [] []) 0 none 7).1 =
        Except.error GateError.generationFailed ∧
      (createRoadmapFromQuery false [] "learn backend development" []
        (CacheState.mk [] []) 0 none 7).2.1 = [] ∧
      (createRoadmapFromQuery false [] "learn backend development" []
        (CacheState.mk [] []) 0 none 7).2.2.2 = 1 :=
  createRoadmap_generationFailed false [] "learn backend development" []
    (CacheState.mk [] []) 0 7 (by simp [getFromCache, lookupA]) rfl

end Jolym
